import Mathlib

/-!
Shallow embedding of the orchestration core of `crs.py` (a continuous
fuzzing / submission client for a timed competition service), together
with proofs of the specified properties of `submit_solution`,
`get_status` and the worker-join loop of `compete`.

Conventions of the embedding:
* timestamps are `Nat` (UTC seconds) for the submission/status logic and
  `Int` where the source subtracts `datetime` values;
* the remote service is modelled as a list of pending responses consumed
  in order by each network call;
* durable storage (the per-challenge pickle file, the cached
  `latest.yaml`) is explicit state threaded through each function;
* observable side effects (cache load, artifact file read, network POST,
  sleeps, notifications, cache writes) are recorded in an event trace.
-/

/-- One bug record stored in the per-challenge cache:
`cache[bug] = {"first": first, "found_at": datetime.utcnow()}`. -/
structure BugRecord where
  first : Bool
  found_at : Nat
  deriving DecidableEq

/-- The per-challenge submission cache pickle: the `"submitted_files"` list
plus one entry per bug id (the Python dict maps integer bug ids to records,
alongside the distinguished string key `"submitted_files"`). -/
structure Cache where
  submitted_files : List String
  bugs : List (Nat × BugRecord)
  deriving DecidableEq

def emptyCache : Cache := ⟨[], []⟩

/-- Dict lookup `cache[bug]` restricted to bug-id keys. -/
def findBug (b : Nat) : List (Nat × BugRecord) → Option BugRecord
  | [] => none
  | (k, r) :: rest => if k = b then some r else findBug b rest

/-- The body parsed from a successful `/submit` response
(`status`, `bug_ids`, `first_ids`, `score`, `requests_remaining`,
and the error string the source reads as `status_s`). -/
structure SubmissionResult where
  status : Int
  bug_ids : List Nat
  first_ids : List Nat
  score : Int
  requests_remaining : Int
  status_s : String
  deriving DecidableEq

/-- One response of the submission endpoint: either an HTTP error whose
body carries an API error `status` code (7 is the rate limit) and message,
or a parsed `SubmissionResult`. -/
inductive ApiResponse where
  | httpError (status : Int) (status_str : String)
  | ok (result : SubmissionResult)
  deriving DecidableEq

/-- The status document (`latest.yaml`): key presence of `rode0day_id`
is tracked separately from its (possibly null) value; `end_time` models
the optional `end` key and `next_start` the `next_start` key. -/
structure StatusDoc where
  has_rode0day_id : Bool
  rode0day_id : Option Nat
  end_time : Option Nat
  next_start : Option Nat
  download_link : String
  challenge_ids : List Nat
  deriving DecidableEq

/-- Observable effects of one `submit_solution` call. -/
inductive Event where
  | loadCache
  | readFile (path : String)
  | post (challenge_id : Nat) (path : String)
  | sleep (secs : Nat)
  | notify (new_bugs : List Nat) (firsts : List Nat) (score : Int)
  | writeCache (c : Cache)
  deriving DecidableEq

/-- Result of a `submit_solution` call: the `ValueError` raise, exhaustion
of the modelled response list, or a normal return (`None`, or the
result's `bug_ids`). -/
inductive SubmitOutcome where
  | valueError
  | noResponse
  | returned (bug_ids : Option (List Nat))
  deriving DecidableEq

/-- Loop body of `submit_solution`'s status-0 branch:
compute `first = bug in result["first_ids"]`, extend `firsts`, and create
a cache record plus a `new_bugs` entry only when `bug` has no record yet.
Accumulator is `(cache, new_bugs, firsts)`. -/
def recordBug (first_ids : List Nat) (now : Nat)
    (acc : Cache × List Nat × List Nat) (bug : Nat) : Cache × List Nat × List Nat :=
  let cache := acc.1
  let new_bugs := acc.2.1
  let firsts := acc.2.2
  let first : Bool := decide (bug ∈ first_ids)
  let firsts' := if first then firsts ++ [bug] else firsts
  if (findBug bug cache.bugs).isSome then
    (cache, new_bugs, firsts')
  else
    ({ cache with bugs := cache.bugs ++ [(bug, ⟨first, now⟩)] }, new_bugs ++ [bug], firsts')

/-- `submit_solution(file_path, challenge_id, status)` with the status
document given explicitly (the source passes it through on the rate-limit
retry). Input state: pending service responses, the durable cache store
for this challenge id, the clock. Output: outcome, updated store, clock,
remaining responses, event trace. -/
def submit_solution (fp : String) (cid : Nat) (status : StatusDoc) :
    List ApiResponse → Option Cache → Nat →
      SubmitOutcome × Option Cache × Nat × List ApiResponse × List Event
  | [], store, now =>
    if cid ∈ status.challenge_ids then
      if fp ∈ (store.getD emptyCache).submitted_files then
        (.returned none, store, now, [], [.loadCache])
      else
        (.noResponse, store, now, [], [.loadCache, .readFile fp])
    else
      (.valueError, store, now, [], [])
  | .httpError s msg :: rest, store, now =>
    if cid ∈ status.challenge_ids then
      if fp ∈ (store.getD emptyCache).submitted_files then
        (.returned none, store, now, .httpError s msg :: rest, [.loadCache])
      else if s = 7 then
        let r := submit_solution fp cid status rest store (now + 60)
        (r.1, r.2.1, r.2.2.1, r.2.2.2.1,
          [.loadCache, .readFile fp, .post cid fp, .sleep 60] ++ r.2.2.2.2)
      else
        (.returned none, store, now + 10, rest,
          [.loadCache, .readFile fp, .post cid fp, .sleep 10])
    else
      (.valueError, store, now, .httpError s msg :: rest, [])
  | .ok result :: rest, store, now =>
    if cid ∈ status.challenge_ids then
      if fp ∈ (store.getD emptyCache).submitted_files then
        (.returned none, store, now, .ok result :: rest, [.loadCache])
      else
        let cache := store.getD emptyCache
        let cache1 : Cache :=
          { cache with submitted_files := cache.submitted_files ++ [fp] }
        let folded :=
          if result.status = 0 then
            result.bug_ids.foldl (recordBug result.first_ids now) (cache1, [], [])
          else (cache1, [], [])
        let notifyEvs : List Event :=
          if folded.2.1.isEmpty then []
          else [.notify folded.2.1 folded.2.2 result.score]
        (.returned (some result.bug_ids), some folded.1, now, rest,
          [.loadCache, .readFile fp, .post cid fp] ++ notifyEvs
            ++ [.writeCache folded.1])
    else
      (.valueError, store, now, .ok result :: rest, [])

/-- One response of the `latest.yaml` endpoint. -/
inductive FetchResponse where
  | httpError
  | doc (d : StatusDoc)
  deriving DecidableEq

/-- Observable effects of one `get_status` call. -/
inductive StatusEvent where
  | fetch
  | writeLatest (d : StatusDoc)
  deriving DecidableEq

/-- The fetch-and-validate tail of `get_status` (also the whole body when
`force_reload` is true): GET `latest.yaml`, reject on HTTP error or a
missing `rode0day_id` key; a null id with a `next_start` is returned
without caching; otherwise the document is written to the local cache.
Output: returned document, updated cache file, remaining fetch
responses, events. -/
def get_status_fetch (cacheFile : Option StatusDoc) (fetches : List FetchResponse) :
    Option StatusDoc × Option StatusDoc × List FetchResponse × List StatusEvent :=
  match fetches with
  | [] => (none, cacheFile, [], [.fetch])
  | .httpError :: rest => (none, cacheFile, rest, [.fetch])
  | .doc data :: rest =>
    if data.has_rode0day_id = false then (none, cacheFile, rest, [.fetch])
    else if data.rode0day_id.isNone then
      if data.next_start.isSome then (some data, cacheFile, rest, [.fetch])
      else (none, cacheFile, rest, [.fetch])
    else
      (some data, some data, rest, [.fetch, .writeLatest data])

/-- `get_status(force_reload)`: use the cached `latest.yaml` when it
exists, is not forced, carries a non-null `rode0day_id`, and its `end`
is still in the future; in every other case fall through to the remote
fetch (`get_status(True)` on a null cached id re-runs the body with the
cache branch disabled, which is exactly the fetch tail). -/
def get_status (force_reload : Bool) (now : Nat) (cacheFile : Option StatusDoc)
    (fetches : List FetchResponse) :
    Option StatusDoc × Option StatusDoc × List FetchResponse × List StatusEvent :=
  match cacheFile, force_reload with
  | some data, false =>
    if data.rode0day_id.isNone then get_status_fetch cacheFile fetches
    else
      match data.end_time with
      | some e =>
        if now < e then (some data, cacheFile, fetches, [])
        else get_status_fetch cacheFile fetches
      | none => get_status_fetch cacheFile fetches
  | _, _ => get_status_fetch cacheFile fetches

/-- The join loop at the end of `compete`: for each fuzz thread, compute
`delta_t = status['end'] - datetime.utcnow()` immediately before the
blocking `thread.join(delta_t.total_seconds())`. Threads are given by
their absolute finish times; a join returns when its thread finishes or
its timeout elapses, whichever is first (a non-positive timeout returns
at once). Output: the list of computed `delta_t` values in order, and
the clock when the loop ends. -/
def competeJoinLoop (end_time : Int) : List Int → Int → List Int × Int
  | [], now => ([], now)
  | finish :: rest, now =>
    let delta_t := end_time - now
    let wake := max now (min finish (now + max delta_t 0))
    let r := competeJoinLoop end_time rest wake
    (delta_t :: r.1, r.2)

/-- Discriminator for sleep events. -/
def Event.isSleep : Event → Bool
  | .sleep _ => true
  | _ => false

/-! Concrete fixtures used by witness theorems. -/

def doc0 : StatusDoc := ⟨true, some 1, some 1000, none, "", [3]⟩

def res0 : SubmissionResult := ⟨0, [5, 7], [7], 2, 9, ""⟩

def cache0 : Cache := ⟨["x"], [(5, ⟨true, 3⟩)]⟩

def staleDoc : StatusDoc := ⟨true, some 1, some 5, none, "", [3]⟩

def freshDoc : StatusDoc := ⟨true, some 2, some 50, none, "", [4]⟩

/-! Characterization lemmas: one per control-flow branch of
`submit_solution`. -/

theorem submit_solution_invalid_challenge (fp : String) (cid : Nat) (status : StatusDoc)
    (responses : List ApiResponse) (store : Option Cache) (now : Nat)
    (h : cid ∉ status.challenge_ids) :
    submit_solution fp cid status responses store now
      = (.valueError, store, now, responses, []) := by
  cases responses with
  | nil => simp [submit_solution, h]
  | cons r rest => cases r <;> simp [submit_solution, h]

theorem submit_solution_skip (fp : String) (cid : Nat) (status : StatusDoc)
    (responses : List ApiResponse) (store : Option Cache) (now : Nat)
    (hcid : cid ∈ status.challenge_ids)
    (hfp : fp ∈ (store.getD emptyCache).submitted_files) :
    submit_solution fp cid status responses store now
      = (.returned none, store, now, responses, [.loadCache]) := by
  cases responses with
  | nil => simp [submit_solution, hcid, hfp]
  | cons r rest => cases r <;> simp [submit_solution, hcid, hfp]

theorem submit_solution_rate_limited (fp : String) (cid : Nat) (status : StatusDoc)
    (msg : String) (rest : List ApiResponse) (store : Option Cache) (now : Nat)
    (hcid : cid ∈ status.challenge_ids)
    (hfp : fp ∉ (store.getD emptyCache).submitted_files) :
    submit_solution fp cid status (.httpError 7 msg :: rest) store now
      = (let r := submit_solution fp cid status rest store (now + 60)
         (r.1, r.2.1, r.2.2.1, r.2.2.2.1,
           [.loadCache, .readFile fp, .post cid fp, .sleep 60] ++ r.2.2.2.2)) := by
  simp [submit_solution, hcid, hfp]

theorem submit_solution_generic_error (fp : String) (cid : Nat) (status : StatusDoc)
    (s : Int) (msg : String) (rest : List ApiResponse) (store : Option Cache) (now : Nat)
    (hcid : cid ∈ status.challenge_ids)
    (hfp : fp ∉ (store.getD emptyCache).submitted_files)
    (hs : s ≠ 7) :
    submit_solution fp cid status (.httpError s msg :: rest) store now
      = (.returned none, store, now + 10, rest,
          [.loadCache, .readFile fp, .post cid fp, .sleep 10]) := by
  simp [submit_solution, hcid, hfp, hs]

theorem submit_solution_ok (fp : String) (cid : Nat) (status : StatusDoc)
    (r : SubmissionResult) (rest : List ApiResponse) (store : Option Cache) (now : Nat)
    (hcid : cid ∈ status.challenge_ids)
    (hfp : fp ∉ (store.getD emptyCache).submitted_files) :
    submit_solution fp cid status (.ok r :: rest) store now
      = (let cache := store.getD emptyCache
         let cache1 : Cache :=
           { cache with submitted_files := cache.submitted_files ++ [fp] }
         let folded :=
           if r.status = 0 then
             r.bug_ids.foldl (recordBug r.first_ids now) (cache1, [], [])
           else (cache1, [], [])
         let notifyEvs : List Event :=
           if folded.2.1.isEmpty then []
           else [.notify folded.2.1 folded.2.2 r.score]
         (.returned (some r.bug_ids), some folded.1, now, rest,
           [.loadCache, .readFile fp, .post cid fp] ++ notifyEvs
             ++ [.writeCache folded.1])) := by
  simp [submit_solution, hcid, hfp]

/-! Lemmas about `findBug` and the `recordBug` fold. -/

theorem findBug_append_left (b : Nat) (l t : List (Nat × BugRecord)) (r : BugRecord)
    (h : findBug b l = some r) : findBug b (l ++ t) = some r := by
  induction l with
  | nil => simp [findBug] at h
  | cons p l ih =>
    obtain ⟨k, v⟩ := p
    by_cases hk : k = b
    · simpa [findBug, hk] using h
    · simp only [findBug, hk, if_false, List.cons_append] at h ⊢
      exact ih h

theorem findBug_append_right (b : Nat) (l t : List (Nat × BugRecord))
    (h : findBug b l = none) : findBug b (l ++ t) = findBug b t := by
  induction l with
  | nil => rfl
  | cons p l ih =>
    obtain ⟨k, v⟩ := p
    by_cases hk : k = b
    · simp [findBug, hk] at h
    · simp only [findBug, hk, if_false, List.cons_append] at h ⊢
      exact ih h

theorem recordBug_fold_submitted (first_ids : List Nat) (now : Nat)
    (bs : List Nat) (c : Cache) (nb fs : List Nat) :
    ((bs.foldl (recordBug first_ids now) (c, nb, fs)).1).submitted_files
      = c.submitted_files := by
  induction bs generalizing c nb fs with
  | nil => rfl
  | cons b bs ih =>
    simp only [List.foldl_cons, recordBug]
    split
    · exact ih c nb _
    · exact ih _ _ _

theorem recordBug_fold_bugs_extend (first_ids : List Nat) (now : Nat)
    (bs : List Nat) (c : Cache) (nb fs : List Nat) :
    ∃ t, ((bs.foldl (recordBug first_ids now) (c, nb, fs)).1).bugs
      = c.bugs ++ t := by
  induction bs generalizing c nb fs with
  | nil => exact ⟨[], (List.append_nil _).symm⟩
  | cons b bs ih =>
    simp only [List.foldl_cons, recordBug]
    split
    · exact ih c nb _
    · obtain ⟨t, ht⟩ := ih { c with bugs := c.bugs ++ [(b, ⟨decide (b ∈ first_ids), now⟩)] }
        (nb ++ [b]) _
      exact ⟨(b, ⟨decide (b ∈ first_ids), now⟩) :: t, by simpa [List.append_assoc] using ht⟩

theorem recordBug_fold_findBug_preserved (first_ids : List Nat) (now : Nat)
    (bs : List Nat) (c : Cache) (nb fs : List Nat) (b : Nat) (r : BugRecord)
    (h : findBug b c.bugs = some r) :
    findBug b ((bs.foldl (recordBug first_ids now) (c, nb, fs)).1).bugs = some r := by
  obtain ⟨t, ht⟩ := recordBug_fold_bugs_extend first_ids now bs c nb fs
  rw [ht]
  exact findBug_append_left b _ t r h

theorem recordBug_fold_newbugs_mono (first_ids : List Nat) (now : Nat)
    (bs : List Nat) (c : Cache) (nb fs : List Nat) (b : Nat) (hb : b ∈ nb) :
    b ∈ (bs.foldl (recordBug first_ids now) (c, nb, fs)).2.1 := by
  induction bs generalizing c nb fs with
  | nil => exact hb
  | cons k bs ih =>
    simp only [List.foldl_cons, recordBug]
    split
    · exact ih c nb _ hb
    · exact ih _ _ _ (List.mem_append_left _ hb)

theorem recordBug_fold_not_new (first_ids : List Nat) (now : Nat)
    (bs : List Nat) (c : Cache) (nb fs : List Nat) (b : Nat) (r : BugRecord)
    (h : findBug b c.bugs = some r) (hnb : b ∉ nb) :
    b ∉ (bs.foldl (recordBug first_ids now) (c, nb, fs)).2.1 := by
  induction bs generalizing c nb fs with
  | nil => exact hnb
  | cons k bs ih =>
    simp only [List.foldl_cons, recordBug]
    split
    · exact ih c nb _ h hnb
    · rename_i hk
      have hne : b ≠ k := by
        intro he
        subst he
        simp [h] at hk
      refine ih _ _ _ (findBug_append_left b _ _ r h) ?_
      simp only [List.mem_append, List.mem_singleton]
      rintro (hc | hc)
      · exact hnb hc
      · exact hne hc

theorem recordBug_fold_creates (first_ids : List Nat) (now : Nat)
    (bs : List Nat) (c : Cache) (nb fs : List Nat) (b : Nat)
    (hmem : b ∈ bs) (hnone : findBug b c.bugs = none) :
    findBug b ((bs.foldl (recordBug first_ids now) (c, nb, fs)).1).bugs
      = some ⟨decide (b ∈ first_ids), now⟩
    ∧ b ∈ (bs.foldl (recordBug first_ids now) (c, nb, fs)).2.1 := by
  induction bs generalizing c nb fs with
  | nil => cases hmem
  | cons k bs ih =>
    by_cases hkb : k = b
    · subst hkb
      simp only [List.foldl_cons, recordBug, hnone, Option.isSome_none,
        Bool.false_eq_true, if_false]
      have hrec : findBug k ({ c with
          bugs := c.bugs ++ [(k, ⟨decide (k ∈ first_ids), now⟩)] } : Cache).bugs
          = some ⟨decide (k ∈ first_ids), now⟩ := by
        simp only
        rw [findBug_append_right k _ _ hnone]
        simp [findBug]
      constructor
      · exact recordBug_fold_findBug_preserved first_ids now bs _ _ _ k _ hrec
      · exact recordBug_fold_newbugs_mono first_ids now bs _ _ _ k
          (List.mem_append_right _ (List.mem_singleton.mpr rfl))
    · have hmem' : b ∈ bs := by
        rcases List.mem_cons.mp hmem with hc | hc
        · exact absurd hc.symm hkb
        · exact hc
      simp only [List.foldl_cons, recordBug]
      split
      · exact ih _ _ _ hmem' hnone
      · refine ih _ _ _ hmem' ?_
        simp only
        rename_i hk
        rw [findBug_append_right b _ _ hnone]
        simp [findBug, hkb]

/-! Run-level lemmas about a whole `submit_solution` call, by induction on
the pending response list (the rate-limit branch recurses on its tail). -/

theorem submit_run_findBug_preserved (fp : String) (cid : Nat) (status : StatusDoc)
    (responses : List ApiResponse) (store : Option Cache) (now : Nat)
    (b : Nat) (r : BugRecord)
    (h : findBug b ((store.getD emptyCache).bugs) = some r) :
    findBug b (((submit_solution fp cid status responses store now).2.1.getD
      emptyCache).bugs) = some r := by
  induction responses generalizing now with
  | nil =>
    by_cases hcid : cid ∈ status.challenge_ids
    · by_cases hfp : fp ∈ (store.getD emptyCache).submitted_files
      · simpa [submit_solution, hcid, hfp] using h
      · simpa [submit_solution, hcid, hfp] using h
    · simpa [submit_solution, hcid] using h
  | cons resp rest ih =>
    cases resp with
    | httpError s msg =>
      by_cases hcid : cid ∈ status.challenge_ids
      · by_cases hfp : fp ∈ (store.getD emptyCache).submitted_files
        · simpa [submit_solution, hcid, hfp] using h
        · by_cases hs : s = 7
          · subst hs
            simpa [submit_solution, hcid, hfp] using ih (now + 60)
          · simpa [submit_solution, hcid, hfp, hs] using h
      · simpa [submit_solution, hcid] using h
    | ok result =>
      by_cases hcid : cid ∈ status.challenge_ids
      · by_cases hfp : fp ∈ (store.getD emptyCache).submitted_files
        · simpa [submit_solution, hcid, hfp] using h
        · simp only [submit_solution, if_pos hcid, if_neg hfp, Option.getD_some]
          by_cases hst : result.status = 0
          · simp only [if_pos hst]
            exact recordBug_fold_findBug_preserved _ _ _ _ _ _ _ _ h
          · simp only [if_neg hst]
            exact h
      · simpa [submit_solution, hcid] using h

theorem submit_run_not_announced (fp : String) (cid : Nat) (status : StatusDoc)
    (responses : List ApiResponse) (store : Option Cache) (now : Nat)
    (b : Nat) (r : BugRecord)
    (h : findBug b ((store.getD emptyCache).bugs) = some r) :
    ∀ nb fs sc, Event.notify nb fs sc
        ∈ (submit_solution fp cid status responses store now).2.2.2.2 → b ∉ nb := by
  induction responses generalizing now with
  | nil =>
    intro nb fs sc hmem
    by_cases hcid : cid ∈ status.challenge_ids
    · by_cases hfp : fp ∈ (store.getD emptyCache).submitted_files
      · simp [submit_solution, hcid, hfp] at hmem
      · simp [submit_solution, hcid, hfp] at hmem
    · simp [submit_solution, hcid] at hmem
  | cons resp rest ih =>
    cases resp with
    | httpError s msg =>
      intro nb fs sc hmem
      by_cases hcid : cid ∈ status.challenge_ids
      · by_cases hfp : fp ∈ (store.getD emptyCache).submitted_files
        · simp [submit_solution, hcid, hfp] at hmem
        · by_cases hs : s = 7
          · subst hs
            simp only [submit_solution, if_pos hcid, if_neg hfp, if_pos rfl] at hmem
            rcases List.mem_append.mp hmem with hc | hc
            · simp at hc
            · exact ih (now + 60) nb fs sc hc
          · simp [submit_solution, hcid, hfp, hs] at hmem
      · simp [submit_solution, hcid] at hmem
    | ok result =>
      intro nb fs sc hmem
      by_cases hcid : cid ∈ status.challenge_ids
      · by_cases hfp : fp ∈ (store.getD emptyCache).submitted_files
        · simp [submit_solution, hcid, hfp] at hmem
        · simp only [submit_solution, if_pos hcid, if_neg hfp] at hmem
          by_cases hst : result.status = 0
          · simp only [if_pos hst] at hmem
            rcases List.mem_append.mp hmem with hc | hc
            · rcases List.mem_append.mp hc with hc' | hc'
              · simp at hc'
              · split at hc'
                · simp at hc'
                · rcases List.mem_singleton.mp hc' with hc''
                  have hnb : nb = (result.bug_ids.foldl
                      (recordBug result.first_ids now)
                      ({ store.getD emptyCache with
                          submitted_files :=
                            (store.getD emptyCache).submitted_files ++ [fp] },
                        [], [])).2.1 := by
                    injection hc''
                  rw [hnb]
                  exact recordBug_fold_not_new result.first_ids now result.bug_ids
                    _ [] [] b r h (List.not_mem_nil b)
            · rcases List.mem_singleton.mp hc with hc'
              cases hc'
          · simp [if_neg hst] at hmem
      · simp [submit_solution, hcid] at hmem

theorem submit_run_submitted_extend (fp : String) (cid : Nat) (status : StatusDoc)
    (responses : List ApiResponse) (store : Option Cache) (now : Nat) :
    ∃ t, ((submit_solution fp cid status responses store now).2.1.getD
        emptyCache).submitted_files
      = (store.getD emptyCache).submitted_files ++ t := by
  induction responses generalizing now with
  | nil =>
    by_cases hcid : cid ∈ status.challenge_ids
    · by_cases hfp : fp ∈ (store.getD emptyCache).submitted_files
      · exact ⟨[], by simp [submit_solution, hcid, hfp]⟩
      · exact ⟨[], by simp [submit_solution, hcid, hfp]⟩
    · exact ⟨[], by simp [submit_solution, hcid]⟩
  | cons resp rest ih =>
    cases resp with
    | httpError s msg =>
      by_cases hcid : cid ∈ status.challenge_ids
      · by_cases hfp : fp ∈ (store.getD emptyCache).submitted_files
        · exact ⟨[], by simp [submit_solution, hcid, hfp]⟩
        · by_cases hs : s = 7
          · subst hs
            obtain ⟨t, ht⟩ := ih (now + 60)
            exact ⟨t, by simpa [submit_solution, hcid, hfp] using ht⟩
          · exact ⟨[], by simp [submit_solution, hcid, hfp, hs]⟩
      · exact ⟨[], by simp [submit_solution, hcid]⟩
    | ok result =>
      by_cases hcid : cid ∈ status.challenge_ids
      · by_cases hfp : fp ∈ (store.getD emptyCache).submitted_files
        · exact ⟨[], by simp [submit_solution, hcid, hfp]⟩
        · refine ⟨[fp], ?_⟩
          simp only [submit_solution, if_pos hcid, if_neg hfp, Option.getD_some]
          by_cases hst : result.status = 0
          · simp only [if_pos hst]
            exact recordBug_fold_submitted _ _ _ _ _ _
          · simp only [if_neg hst]
      · exact ⟨[], by simp [submit_solution, hcid]⟩

theorem submit_run_bugs_extend (fp : String) (cid : Nat) (status : StatusDoc)
    (responses : List ApiResponse) (store : Option Cache) (now : Nat) :
    ∃ t, ((submit_solution fp cid status responses store now).2.1.getD
        emptyCache).bugs
      = (store.getD emptyCache).bugs ++ t := by
  induction responses generalizing now with
  | nil =>
    by_cases hcid : cid ∈ status.challenge_ids
    · by_cases hfp : fp ∈ (store.getD emptyCache).submitted_files
      · exact ⟨[], by simp [submit_solution, hcid, hfp]⟩
      · exact ⟨[], by simp [submit_solution, hcid, hfp]⟩
    · exact ⟨[], by simp [submit_solution, hcid]⟩
  | cons resp rest ih =>
    cases resp with
    | httpError s msg =>
      by_cases hcid : cid ∈ status.challenge_ids
      · by_cases hfp : fp ∈ (store.getD emptyCache).submitted_files
        · exact ⟨[], by simp [submit_solution, hcid, hfp]⟩
        · by_cases hs : s = 7
          · subst hs
            obtain ⟨t, ht⟩ := ih (now + 60)
            exact ⟨t, by simpa [submit_solution, hcid, hfp] using ht⟩
          · exact ⟨[], by simp [submit_solution, hcid, hfp, hs]⟩
      · exact ⟨[], by simp [submit_solution, hcid]⟩
    | ok result =>
      by_cases hcid : cid ∈ status.challenge_ids
      · by_cases hfp : fp ∈ (store.getD emptyCache).submitted_files
        · exact ⟨[], by simp [submit_solution, hcid, hfp]⟩
        · simp only [submit_solution, if_pos hcid, if_neg hfp, Option.getD_some]
          by_cases hst : result.status = 0
          · simp only [if_pos hst]
            exact recordBug_fold_bugs_extend _ _ _ _ _ _
          · exact ⟨[], by simp [if_neg hst]⟩
      · exact ⟨[], by simp [submit_solution, hcid]⟩

theorem submit_run_persists (fp : String) (cid : Nat) (status : StatusDoc)
    (responses : List ApiResponse) (store : Option Cache) (now : Nat)
    (bids : List Nat)
    (h : (submit_solution fp cid status responses store now).1
      = .returned (some bids)) :
    ∃ c, (submit_solution fp cid status responses store now).2.1 = some c
      ∧ Event.writeCache c
          ∈ (submit_solution fp cid status responses store now).2.2.2.2
      ∧ (submit_solution fp cid status responses store now).2.1.getD emptyCache
          = c := by
  induction responses generalizing now with
  | nil =>
    by_cases hcid : cid ∈ status.challenge_ids
    · by_cases hfp : fp ∈ (store.getD emptyCache).submitted_files
      · simp [submit_solution, hcid, hfp] at h
      · simp [submit_solution, hcid, hfp] at h
    · simp [submit_solution, hcid] at h
  | cons resp rest ih =>
    cases resp with
    | httpError s msg =>
      by_cases hcid : cid ∈ status.challenge_ids
      · by_cases hfp : fp ∈ (store.getD emptyCache).submitted_files
        · simp [submit_solution, hcid, hfp] at h
        · by_cases hs : s = 7
          · subst hs
            simp only [submit_solution, if_pos hcid, if_neg hfp, if_pos rfl] at h ⊢
            obtain ⟨c, hc1, hc2, hc3⟩ := ih (now + 60) h
            exact ⟨c, hc1, List.mem_append_right _ hc2, hc3⟩
          · simp [submit_solution, hcid, hfp, hs] at h
      · simp [submit_solution, hcid] at h
    | ok result =>
      by_cases hcid : cid ∈ status.challenge_ids
      · by_cases hfp : fp ∈ (store.getD emptyCache).submitted_files
        · simp [submit_solution, hcid, hfp] at h
        · simp only [submit_solution, if_pos hcid, if_neg hfp, Option.getD_some]
          exact ⟨_, rfl, by simp, rfl⟩
      · simp [submit_solution, hcid] at h

/-- Any document the fetch-and-validate tail writes to the local cache has
passed the id validation: the `rode0day_id` key is present and non-null. -/
theorem get_status_fetch_write_has_id (cacheFile : Option StatusDoc)
    (fetches : List FetchResponse) (d : StatusDoc)
    (h : StatusEvent.writeLatest d ∈ (get_status_fetch cacheFile fetches).2.2.2) :
    d.has_rode0day_id = true ∧ d.rode0day_id.isSome := by
  cases fetches with
  | nil => simp [get_status_fetch] at h
  | cons f rest =>
    cases f with
    | httpError => simp [get_status_fetch] at h
    | doc data =>
      cases hb : data.has_rode0day_id with
      | false => simp [get_status_fetch, hb] at h
      | true =>
        cases hid : data.rode0day_id with
        | none =>
          by_cases h3 : data.next_start.isSome <;>
            simp [get_status_fetch, hb, hid, h3] at h
        | some i =>
          simp only [get_status_fetch, hb, Bool.true_eq_false, if_false, hid,
            Option.isNone_some, Bool.false_eq_true, List.mem_cons,
            List.not_mem_nil, or_false] at h
          rcases h with h | h
          · cases h
          · cases h
            exact ⟨hb, by simp [hid]⟩

/-- A status-0 result reporting a bug id with no existing record creates
the record `{first := decide (b ∈ first_ids), found_at := now}`. -/
theorem submit_ok_creates_record (fp : String) (cid : Nat) (status : StatusDoc)
    (store : Option Cache) (now : Nat) (r : SubmissionResult)
    (rest : List ApiResponse) (b : Nat)
    (hcid : cid ∈ status.challenge_ids)
    (hfp : fp ∉ (store.getD emptyCache).submitted_files)
    (hst : r.status = 0) (hb : b ∈ r.bug_ids)
    (hnew : findBug b ((store.getD emptyCache).bugs) = none) :
    findBug b (((submit_solution fp cid status (.ok r :: rest) store
        now).2.1.getD emptyCache).bugs)
      = some ⟨decide (b ∈ r.first_ids), now⟩ := by
  simp only [submit_solution, if_pos hcid, if_neg hfp, Option.getD_some,
    if_pos hst]
  exact (recordBug_fold_creates r.first_ids now r.bug_ids
    ⟨(store.getD emptyCache).submitted_files ++ [fp],
      (store.getD emptyCache).bugs⟩ [] [] b hb hnew).1

/-- A status-0 result reporting a bug id with no existing record announces
that bug id in the new-bugs notification. -/
theorem submit_ok_notify_new (fp : String) (cid : Nat) (status : StatusDoc)
    (store : Option Cache) (now : Nat) (r : SubmissionResult)
    (rest : List ApiResponse) (b : Nat)
    (hcid : cid ∈ status.challenge_ids)
    (hfp : fp ∉ (store.getD emptyCache).submitted_files)
    (hst : r.status = 0) (hb : b ∈ r.bug_ids)
    (hnew : findBug b ((store.getD emptyCache).bugs) = none) :
    ∃ nb fs sc, Event.notify nb fs sc
        ∈ (submit_solution fp cid status (.ok r :: rest) store now).2.2.2.2
      ∧ b ∈ nb := by
  have key := recordBug_fold_creates r.first_ids now r.bug_ids
    ⟨(store.getD emptyCache).submitted_files ++ [fp],
      (store.getD emptyCache).bugs⟩ [] [] b hb hnew
  simp only [submit_solution, if_pos hcid, if_neg hfp, if_pos hst]
  refine ⟨_, (r.bug_ids.foldl (recordBug r.first_ids now)
      ((⟨(store.getD emptyCache).submitted_files ++ [fp],
        (store.getD emptyCache).bugs⟩ : Cache), [], [])).2.2, r.score,
    ?_, key.2⟩
  have hne : ((r.bug_ids.foldl (recordBug r.first_ids now)
      ((⟨(store.getD emptyCache).submitted_files ++ [fp],
        (store.getD emptyCache).bugs⟩ : Cache), [], [])).2.1).isEmpty
      = false := by
    cases hEmp : (r.bug_ids.foldl (recordBug r.first_ids now)
        ((⟨(store.getD emptyCache).submitted_files ++ [fp],
          (store.getD emptyCache).bugs⟩ : Cache), [], [])).2.1 with
    | nil => exact absurd (hEmp ▸ key.2) (List.not_mem_nil b)
    | cons x xs => rfl
  simp [hne]

/-! Claim theorems. -/

/-- Claim C1: the first successful submission of an artifact path adds the
path to the submitted-files set regardless of the result's status code,
and every later `submit_solution` call with the same path and challenge id
against the resulting store returns `None` immediately — the state, clock
and pending responses are untouched and the event trace shows only the
cache load, with no file read and no network POST. -/
theorem submitOne_idempotent (fp : String) (cid : Nat) (status : StatusDoc)
    (store : Option Cache) (now : Nat) (r : SubmissionResult)
    (rest : List ApiResponse)
    (hcid : cid ∈ status.challenge_ids)
    (hfp : fp ∉ (store.getD emptyCache).submitted_files) :
    (∃ c, (submit_solution fp cid status (.ok r :: rest) store now).2.1 = some c
        ∧ fp ∈ c.submitted_files)
    ∧ (∀ responses₂ now₂,
        submit_solution fp cid status responses₂
            (submit_solution fp cid status (.ok r :: rest) store now).2.1 now₂
          = (.returned none,
              (submit_solution fp cid status (.ok r :: rest) store now).2.1,
              now₂, responses₂, [.loadCache])) := by
  have hmem : ∃ c,
      (submit_solution fp cid status (.ok r :: rest) store now).2.1 = some c
        ∧ fp ∈ c.submitted_files := by
    simp only [submit_solution, if_pos hcid, if_neg hfp]
    refine ⟨_, rfl, ?_⟩
    by_cases hst : r.status = 0
    · simp only [if_pos hst]
      rw [recordBug_fold_submitted]
      exact List.mem_append_right _ (List.mem_singleton.mpr rfl)
    · simp only [if_neg hst]
      exact List.mem_append_right _ (List.mem_singleton.mpr rfl)
  refine ⟨hmem, ?_⟩
  intro responses₂ now₂
  obtain ⟨c, hc, hfc⟩ := hmem
  refine submit_solution_skip fp cid status responses₂ _ now₂ hcid ?_
  rw [hc]
  exact hfc

/-- Claim C1 witness: concrete instance of the idempotence theorem. -/
theorem submitOne_idempotent_witness :
    (∃ c, (submit_solution "a" 3 doc0 [.ok res0] none 0).2.1 = some c
        ∧ "a" ∈ c.submitted_files)
    ∧ (∀ responses₂ now₂,
        submit_solution "a" 3 doc0 responses₂
            (submit_solution "a" 3 doc0 [.ok res0] none 0).2.1 now₂
          = (.returned none,
              (submit_solution "a" 3 doc0 [.ok res0] none 0).2.1,
              now₂, responses₂, [.loadCache])) :=
  submitOne_idempotent "a" 3 doc0 none 0 res0 [] (by decide) (by decide)

/-- Claim C9: a `submit_solution` call whose challenge id is not in the
status document's challenge id set raises `ValueError` at once: the store
and clock are unchanged, no response is consumed, and the event trace is
empty (no cache load, no artifact read, no network POST). -/
theorem submitOne_invalid_challenge (fp : String) (cid : Nat)
    (status : StatusDoc) (responses : List ApiResponse) (store : Option Cache)
    (now : Nat) (h : cid ∉ status.challenge_ids) :
    submit_solution fp cid status responses store now
      = (.valueError, store, now, responses, []) :=
  submit_solution_invalid_challenge fp cid status responses store now h

/-- Claim C9 witness: challenge id 9 is not in `doc0`'s challenge set. -/
theorem submitOne_invalid_challenge_witness :
    submit_solution "a" 9 doc0 [] none 0 = (.valueError, none, 0, [], []) :=
  submitOne_invalid_challenge "a" 9 doc0 [] none 0 (by decide)

/-- Claim C6: a non-forced `get_status` call with a cached descriptor whose
id is non-null and whose end time is still in the future returns the
cached descriptor unchanged, consumes no fetch response and performs no
remote call and no cache write (empty event trace). -/
theorem get_status_cached_future (d : StatusDoc) (i : Nat) (e : Nat)
    (now : Nat) (fetches : List FetchResponse)
    (hid : d.rode0day_id = some i) (he : d.end_time = some e) (hlt : now < e) :
    get_status false now (some d) fetches = (some d, some d, fetches, []) := by
  simp [get_status, hid, he, hlt]

/-- Claim C6 witness: `freshDoc` is cached with end time 50, queried at
time 5. -/
theorem get_status_cached_future_witness :
    get_status false 5 (some freshDoc) []
      = (some freshDoc, some freshDoc, [], []) :=
  get_status_cached_future freshDoc 2 50 5 [] rfl rfl (by decide)

/-- Claim C3: a bug id newly recorded by a status-0 submission result gets
`first = true` in its cache record exactly when it is a member of the
result's `first_ids`, and `first = false` when it is absent. -/
theorem submitOne_first_discovery_flag (fp : String) (cid : Nat)
    (status : StatusDoc) (store : Option Cache) (now : Nat)
    (r : SubmissionResult) (rest : List ApiResponse) (b : Nat)
    (hcid : cid ∈ status.challenge_ids)
    (hfp : fp ∉ (store.getD emptyCache).submitted_files)
    (hst : r.status = 0) (hb : b ∈ r.bug_ids)
    (hnew : findBug b ((store.getD emptyCache).bugs) = none) :
    ∃ rec, findBug b (((submit_solution fp cid status (.ok r :: rest) store
        now).2.1.getD emptyCache).bugs) = some rec
      ∧ (rec.first = true ↔ b ∈ r.first_ids) :=
  ⟨⟨decide (b ∈ r.first_ids), now⟩,
    submit_ok_creates_record fp cid status store now r rest b hcid hfp hst hb
      hnew,
    by simp⟩

/-- Claim C3 witness: bug 7 is in `res0.first_ids`, so its fresh record
carries `first = true`. -/
theorem submitOne_first_discovery_flag_witness :
    ∃ rec, findBug 7 (((submit_solution "a" 3 doc0 [.ok res0] none
        0).2.1.getD emptyCache).bugs) = some rec
      ∧ (rec.first = true ↔ 7 ∈ res0.first_ids) :=
  submitOne_first_discovery_flag "a" 3 doc0 none 0 res0 [] 7 (by decide)
    (by decide) (by decide) (by decide) (by decide)

/-- Claim C2: when a status-0 result first reports bug id `b`, exactly one
record is created for `b` and `b` is announced among the new bugs; any
later submission (of any other artifact path, against the resulting
store) leaves that record unchanged and never announces `b` again. -/
theorem submitOne_bug_dedup (fp₁ fp₂ : String) (cid : Nat)
    (status : StatusDoc) (store : Option Cache) (now₁ : Nat)
    (r₁ : SubmissionResult) (rest₁ : List ApiResponse) (b : Nat)
    (hcid : cid ∈ status.challenge_ids)
    (hfp₁ : fp₁ ∉ (store.getD emptyCache).submitted_files)
    (hst : r₁.status = 0) (hb : b ∈ r₁.bug_ids)
    (hnew : findBug b ((store.getD emptyCache).bugs) = none) :
    ∃ rec,
      findBug b (((submit_solution fp₁ cid status (.ok r₁ :: rest₁) store
          now₁).2.1.getD emptyCache).bugs) = some rec
      ∧ (∃ nb fs sc,
          Event.notify nb fs sc
            ∈ (submit_solution fp₁ cid status (.ok r₁ :: rest₁) store
                now₁).2.2.2.2
          ∧ b ∈ nb)
      ∧ (∀ responses₂ now₂,
          findBug b (((submit_solution fp₂ cid status responses₂
              (submit_solution fp₁ cid status (.ok r₁ :: rest₁) store
                now₁).2.1 now₂).2.1.getD emptyCache).bugs) = some rec
          ∧ ∀ nb fs sc,
              Event.notify nb fs sc
                ∈ (submit_solution fp₂ cid status responses₂
                    (submit_solution fp₁ cid status (.ok r₁ :: rest₁) store
                      now₁).2.1 now₂).2.2.2.2
              → b ∉ nb) := by
  have h1 := submit_ok_creates_record fp₁ cid status store now₁ r₁ rest₁ b
    hcid hfp₁ hst hb hnew
  refine ⟨⟨decide (b ∈ r₁.first_ids), now₁⟩, h1, ?_, ?_⟩
  · exact submit_ok_notify_new fp₁ cid status store now₁ r₁ rest₁ b hcid hfp₁
      hst hb hnew
  · intro responses₂ now₂
    exact ⟨submit_run_findBug_preserved fp₂ cid status responses₂ _ now₂ b _ h1,
      submit_run_not_announced fp₂ cid status responses₂ _ now₂ b _ h1⟩

/-- Claim C2 witness: bug 5 is first reported by submitting path `a`; a
later submission of path `b2` (with another success reporting bug 5 again)
leaves the record unchanged. -/
theorem submitOne_bug_dedup_witness :
    ∃ rec,
      findBug 5 (((submit_solution "a" 3 doc0 [.ok res0] none
          0).2.1.getD emptyCache).bugs) = some rec
      ∧ (∃ nb fs sc,
          Event.notify nb fs sc
            ∈ (submit_solution "a" 3 doc0 [.ok res0] none 0).2.2.2.2
          ∧ 5 ∈ nb)
      ∧ (∀ responses₂ now₂,
          findBug 5 (((submit_solution "b2" 3 doc0 responses₂
              (submit_solution "a" 3 doc0 [.ok res0] none 0).2.1
              now₂).2.1.getD emptyCache).bugs) = some rec
          ∧ ∀ nb fs sc,
              Event.notify nb fs sc
                ∈ (submit_solution "b2" 3 doc0 responses₂
                    (submit_solution "a" 3 doc0 [.ok res0] none
                      0).2.1 now₂).2.2.2.2
              → 5 ∉ nb) :=
  submitOne_bug_dedup "a" "b2" 3 doc0 none 0 res0 [] 5 (by decide)
    (by decide) (by decide) (by decide) (by decide)

/-- Claim C5: whenever a `submit_solution` call returns a success result
(whatever the result's status code), the final in-memory cache has been
written to durable storage: the store holds some cache `c`, the event
trace contains the write of that very `c`, and reloading the store yields
`c` again. -/
theorem submitOne_persists_cache (fp : String) (cid : Nat)
    (status : StatusDoc) (responses : List ApiResponse) (store : Option Cache)
    (now : Nat) (bids : List Nat)
    (h : (submit_solution fp cid status responses store now).1
      = .returned (some bids)) :
    ∃ c, (submit_solution fp cid status responses store now).2.1 = some c
      ∧ Event.writeCache c
          ∈ (submit_solution fp cid status responses store now).2.2.2.2
      ∧ (submit_solution fp cid status responses store now).2.1.getD emptyCache
          = c :=
  submit_run_persists fp cid status responses store now bids h

/-- Claim C5 witness: a concrete successful submission persists its
cache. -/
theorem submitOne_persists_cache_witness :
    ∃ c, (submit_solution "a" 3 doc0 [.ok res0] none 0).2.1 = some c
      ∧ Event.writeCache c
          ∈ (submit_solution "a" 3 doc0 [.ok res0] none 0).2.2.2.2
      ∧ (submit_solution "a" 3 doc0 [.ok res0] none 0).2.1.getD emptyCache
          = c :=
  submitOne_persists_cache "a" 3 doc0 [.ok res0] none 0 res0.bug_ids
    (by decide)

/-- Claim C10: one `submit_solution` call only ever extends the cache: the
submitted-files list and the bug list of the resulting store are the old
ones plus a (possibly empty) suffix, and every pre-existing bug record is
still found unchanged under its bug id. -/
theorem submitOne_cache_monotonic (fp : String) (cid : Nat)
    (status : StatusDoc) (responses : List ApiResponse) (store : Option Cache)
    (now : Nat) :
    (∃ t, ((submit_solution fp cid status responses store now).2.1.getD
        emptyCache).submitted_files
      = (store.getD emptyCache).submitted_files ++ t)
    ∧ (∃ t, ((submit_solution fp cid status responses store now).2.1.getD
        emptyCache).bugs = (store.getD emptyCache).bugs ++ t)
    ∧ (∀ b rec, findBug b ((store.getD emptyCache).bugs) = some rec →
        findBug b (((submit_solution fp cid status responses store
          now).2.1.getD emptyCache).bugs) = some rec) :=
  ⟨submit_run_submitted_extend fp cid status responses store now,
    submit_run_bugs_extend fp cid status responses store now,
    fun b rec h =>
      submit_run_findBug_preserved fp cid status responses store now b rec h⟩

/-- Claim C10 witness: the pre-existing record of bug 5 in `cache0`
survives a concrete submission run unchanged. -/
theorem submitOne_cache_monotonic_witness :
    findBug 5 (((submit_solution "a" 3 doc0 [.ok res0] (some cache0)
        0).2.1.getD emptyCache).bugs) = some ⟨true, 3⟩ :=
  (submitOne_cache_monotonic "a" 3 doc0 [.ok res0] (some cache0) 0).2.2 5
    ⟨true, 3⟩ (by decide)

/-- Claim C4: with the service response sequence
`[RateLimited, RateLimited, Success]`, `submit_solution` returns the
successful result's bug ids after exactly two 60-second cooldown sleeps
(the only sleeps in the trace), and the artifact path enters the
submitted-files list exactly once — no duplicate cache entry. -/
theorem submitOne_rate_limit_resilient (fp : String) (cid : Nat)
    (status : StatusDoc) (store : Option Cache) (now : Nat) (m₁ m₂ : String)
    (r : SubmissionResult) (rest : List ApiResponse)
    (hcid : cid ∈ status.challenge_ids)
    (hfp : fp ∉ (store.getD emptyCache).submitted_files) :
    (submit_solution fp cid status
        (.httpError 7 m₁ :: .httpError 7 m₂ :: .ok r :: rest) store now).1
      = .returned (some r.bug_ids)
    ∧ ((submit_solution fp cid status
        (.httpError 7 m₁ :: .httpError 7 m₂ :: .ok r :: rest) store
          now).2.2.2.2).filter Event.isSleep = [.sleep 60, .sleep 60]
    ∧ (∃ c, (submit_solution fp cid status
        (.httpError 7 m₁ :: .httpError 7 m₂ :: .ok r :: rest) store
          now).2.1 = some c
        ∧ c.submitted_files
            = (store.getD emptyCache).submitted_files ++ [fp]
        ∧ c.submitted_files.count fp = 1) := by
  have hnotif : ∀ (l f : List Nat) (sc : Int),
      (if l.isEmpty then ([] : List Event)
        else [.notify l f sc]).filter Event.isSleep = [] := by
    intro l f sc
    split
    · rfl
    · simp [Event.isSleep]
  have hsub : ∀ c : Cache, c.submitted_files
      = (store.getD emptyCache).submitted_files ++ [fp]
      → c.submitted_files.count fp = 1 := by
    intro c hc
    rw [hc, List.count_append]
    rw [List.count_eq_zero.mpr hfp]
    simp
  simp only [submit_solution, if_pos hcid, if_neg hfp, if_pos rfl, if_true]
  refine ⟨trivial, ?_, ?_⟩
  · simp [List.filter_append, Event.isSleep, hnotif]
  · refine ⟨_, rfl, ?_, ?_⟩
    · by_cases hst : r.status = 0
      · simp only [if_pos hst]
        exact recordBug_fold_submitted r.first_ids (now + 60 + 60) r.bug_ids
          _ [] []
      · simp only [if_neg hst]
    · apply hsub
      by_cases hst : r.status = 0
      · simp only [if_pos hst]
        exact recordBug_fold_submitted r.first_ids (now + 60 + 60) r.bug_ids
          _ [] []
      · simp only [if_neg hst]

/-- Claim C4 witness: concrete rate-limited run. -/
theorem submitOne_rate_limit_resilient_witness :
    (submit_solution "a" 3 doc0
        [.httpError 7 "slow down", .httpError 7 "slow down", .ok res0]
        none 0).1 = .returned (some res0.bug_ids)
    ∧ ((submit_solution "a" 3 doc0
        [.httpError 7 "slow down", .httpError 7 "slow down", .ok res0]
        none 0).2.2.2.2).filter Event.isSleep = [.sleep 60, .sleep 60]
    ∧ (∃ c, (submit_solution "a" 3 doc0
        [.httpError 7 "slow down", .httpError 7 "slow down", .ok res0]
        none 0).2.1 = some c
        ∧ c.submitted_files
            = ((none : Option Cache).getD emptyCache).submitted_files ++ ["a"]
        ∧ c.submitted_files.count "a" = 1) :=
  submitOne_rate_limit_resilient "a" 3 doc0 none 0 "slow down" "slow down"
    res0 [] (by decide) (by decide)

/-- Claim C7 counterexample: at time 10 the remote returns a descriptor
with a non-null id whose end time 5 already lies in the past, and
`get_status` nevertheless writes it to the local cache (the write event is
in the trace and the cache file now holds the stale descriptor) — the
claim that such a fetch is discarded rather than cached is false. -/
theorem get_status_caches_stale_counterexample :
    (get_status false 10 none [.doc staleDoc]).2.2.2
      = [.fetch, .writeLatest staleDoc]
    ∧ (get_status false 10 none [.doc staleDoc]).2.1 = some staleDoc
    ∧ staleDoc.rode0day_id = some 1
    ∧ staleDoc.end_time = some 5 ∧ ¬(10 < 5) :=
  ⟨rfl, rfl, rfl, rfl, by decide⟩

/-- Claim C7 (amended): every descriptor `get_status` ever writes to the
local cache has a present, non-null `rode0day_id`; the end time, however,
is not validated at write time (it may be missing or already past). -/
theorem get_status_write_has_id (f : Bool) (now : Nat)
    (cacheFile : Option StatusDoc) (fetches : List FetchResponse)
    (d : StatusDoc)
    (h : StatusEvent.writeLatest d ∈ (get_status f now cacheFile fetches).2.2.2) :
    d.has_rode0day_id = true ∧ d.rode0day_id.isSome := by
  cases cacheFile with
  | none => cases f <;> exact get_status_fetch_write_has_id _ _ _ h
  | some data =>
    cases f with
    | true => exact get_status_fetch_write_has_id _ _ _ h
    | false =>
      by_cases h1 : data.rode0day_id.isNone
      · simp only [get_status, if_pos h1] at h
        exact get_status_fetch_write_has_id _ _ _ h
      · cases he : data.end_time with
        | none =>
          simp only [get_status, if_neg h1, he] at h
          exact get_status_fetch_write_has_id _ _ _ h
        | some e =>
          by_cases hlt : now < e
          · simp only [get_status, if_neg h1, he, if_pos hlt] at h
            simp at h
          · simp only [get_status, if_neg h1, he, if_neg hlt] at h
            exact get_status_fetch_write_has_id _ _ _ h

/-- Claim C7 (amended) witness: a concrete fetched-and-written descriptor
has a present, non-null id. -/
theorem get_status_write_has_id_witness :
    freshDoc.has_rode0day_id = true ∧ freshDoc.rode0day_id.isSome :=
  get_status_write_has_id false 0 none [.doc freshDoc] freshDoc (by decide)

/-- Claim C8 counterexample: with two fuzz threads (finish times 30 and
200, deadline 100, start 0) the join loop computes `delta_t` twice — once
per thread, with different values 100 and 70 — and not exactly once as the
claim states. -/
theorem compete_delta_recomputed_counterexample :
    (competeJoinLoop 100 [30, 200] 0).1 = [100, 70]
    ∧ ¬((competeJoinLoop 100 [30, 200] 0).1.length = 1) :=
  ⟨by decide, by decide⟩

/-- Claim C8 (amended): the join loop of `compete` computes
`delta_t = end − now` once per fuzz thread, immediately before that
thread's join (so each sequential join receives the time then remaining to
the shared deadline), rather than once in total. -/
theorem compete_delta_per_thread (end_time : Int) (threads : List Int)
    (now : Int) :
    (competeJoinLoop end_time threads now).1.length = threads.length
    ∧ (∀ f ts, threads = f :: ts →
        (competeJoinLoop end_time threads now).1.head? = some (end_time - now)) := by
  constructor
  · induction threads generalizing now with
    | nil => rfl
    | cons finish ts ih => simp [competeJoinLoop, ih]
  · rintro f ts rfl
    rfl

/-- Claim C8 (amended) witness: concrete two-thread run. -/
theorem compete_delta_per_thread_witness :
    (competeJoinLoop 100 [30, 200] 0).1.head? = some (100 - 0) :=
  (compete_delta_per_thread 100 [30, 200] 0).2 30 [200] rfl
